import Mathlib

/-!
Shallow embedding of the local vector store / similarity-search subsystem of
the `gavina` RAG backend (src/services/vectorDatabaseService.js,
src/unnamed/part_001 = the free TF-IDF embedding module,
src/unnamed/part_002 = the visualization service, src/routes/rag.js),
together with proofs of the spec's testable properties.

Conventions:
* JavaScript numbers are modelled as `ℚ` in the parts of the code that only
  move already-computed numbers around (stores, caches, ranking), and as `ℝ`
  where `Math.sqrt` enters the computation (cosine similarity, k-means,
  word vectors).  Overflow/rounding of IEEE doubles is not modelled.
* A JS `Map` is modelled as an association list in insertion order, with
  `Map.set` updating in place and appending fresh keys at the end, exactly
  the iteration-order semantics the source relies on.
* `Array.prototype.slice(0, e)` and `String.split(/\s+/)` are modelled by
  `jsSlice0` and `jsSplitWs` below with JavaScript's clamping semantics.
-/

namespace Gavina

/-- Runtime errors a modelled code path can raise.  The only one the claims
need is the `TypeError` produced by calling a property that is `undefined`. -/
inductive JsError where
  | typeError : JsError
  deriving DecidableEq, Repr

/-- The subset of JavaScript values a modelled function can return when the
source returns either nothing (`undefined`) or a boolean. -/
inductive JsValue where
  | undefined : JsValue
  | boolean : Bool → JsValue
  deriving DecidableEq, Repr

/-- Models `Array.prototype.slice(0, e)`: a nonnegative end index is clamped to the
length, a negative end index counts from the end of the array. -/
def jsSlice0 {α : Type} (l : List α) (e : Int) : List α :=
  l.take (if e < 0 then (l.length + e).toNat else e.toNat)

/-- JS `Map` lookup: the value stored at `k`, if any. -/
def mapGet {α β : Type} [DecidableEq α] (m : List (α × β)) (k : α) : Option β :=
  (m.find? (fun p => p.1 = k)).map Prod.snd

/-- JS `Map.prototype.set`: replaces the value in place when the key is
present (keeping its position in insertion order), otherwise appends the new
entry at the end. -/
def mapSet {α β : Type} [DecidableEq α] (m : List (α × β)) (k : α) (v : β) :
    List (α × β) :=
  if (m.map Prod.fst).contains k then
    m.map (fun p => if p.1 = k then (k, v) else p)
  else
    m ++ [(k, v)]

/-- JS `Map.prototype.delete`'s effect on the entries: removes the entry with
key `k` (maps never hold duplicate keys). -/
def mapDelete {α β : Type} [DecidableEq α] (m : List (α × β)) (k : α) :
    List (α × β) :=
  m.filter (fun p => p.1 ≠ k)

/-- Whether `Map.prototype.delete` would report a removal: the key is
present. -/
def mapHas {α β : Type} [DecidableEq α] (m : List (α × β)) (k : α) : Bool :=
  (m.map Prod.fst).contains k

/-! ### The local vector store (`VectorDatabaseService`, local backend)

`this.localVectors` is a `Map` from id to `{id, values, metadata}`; we model
the store as that map (an association list in insertion order) and the
record payload as the `values` array plus the metadata bag.  Metadata values
are modelled as strings, which covers every filter the claims exercise. -/

/-- The payload stored under an id in `this.localVectors`: the embedding
array and the metadata object. -/
structure LocalVectorData where
  values : List ℚ
  metadata : List (String × String)
  deriving DecidableEq, Repr

/-- The local store `this.localVectors`. -/
abbrev LocalStore := List (String × LocalVectorData)

/-- Names of the properties available on a `VectorDatabaseService` instance:
the fields assigned in the constructor followed by the methods of the class
body, transcribed from src/services/vectorDatabaseService.js lines 141-812.
Note that `cosineSimilarity` is *not* among them: that method is defined
only on the separate `VectorClusteringService` class. -/
def vdsInstanceProperties : List String :=
  [ "openai", "pinecone", "index", "localVectors", "vectorFile",
    "clusteringService", "vectorCache", "semanticCache", "batchQueue",
    "isProcessingBatch", "vectorAnalytics", "hf", "multilingualModel",
    "constructor", "initializeDatabase", "configureAdvancedIndex",
    "optimizeLocalVectors", "loadAnalytics", "saveAnalytics",
    "loadLocalVectors", "saveLocalVectors", "createEmbedding",
    "multilingualSimilaritySearch", "similaritySearch",
    "detectLanguageRich", "normalizeText", "createHuggingFaceEmbedding",
    "deleteVector", "getVectorStats", "getAllVectors", "batchInsert",
    "generateCacheKey", "detectLanguage", "extractSemanticTags",
    "calculateSemanticRelevance", "rerankResults", "applyDiversityFilter",
    "textSimilarity", "performLocalSemanticSearch", "startBatchProcessor",
    "addToBatch", "processBatch", "getAdvancedVectorStats",
    "analyzeSimilarityPatterns", "optimizeVectorDatabase" ]

/-- The call `this.cosineSimilarity(queryEmbedding, vectorData.values)` in
`performLocalSemanticSearch` (line 659).  In JavaScript, reading an absent
property yields `undefined` and calling `undefined` throws a `TypeError`.
The then-branch is provably unreachable because `VectorDatabaseService`
defines no `cosineSimilarity` property, so no similarity value ever needs to
be produced. -/
def getCosineSimilarity (_queryEmbedding _values : List ℚ) :
    Except JsError ℚ :=
  if h : "cosineSimilarity" ∈ vdsInstanceProperties then
    absurd h (by decide)
  else
    .error .typeError

/-- One entry of the `similarities` array built by
`performLocalSemanticSearch`: `{id, score: similarity, metadata}`. -/
structure LocalMatch where
  id : String
  score : ℚ
  metadata : List (String × String)
  deriving DecidableEq, Repr

/-- The body of the `for (const [id, vectorData] of this.localVectors)` loop:
compute the similarity (which throws, see `getCosineSimilarity`), test the
metadata against every filter entry with `!==`, and push a match when all
filter keys agree. -/
def localSearchLoopBody (queryEmbedding : List ℚ)
    (filter : List (String × String)) (acc : List LocalMatch)
    (entry : String × LocalVectorData) : Except JsError (List LocalMatch) := do
  let similarity ← getCosineSimilarity queryEmbedding entry.2.values
  let passesFilter := filter.all (fun kv => mapGet entry.2.metadata kv.1 = some kv.2)
  pure (if passesFilter then acc ++ [⟨entry.1, similarity, entry.2.metadata⟩] else acc)

/-- Models `similarities.sort((a, b) => b.score - a.score)`: a stable sort putting
higher scores first (`Array.prototype.sort` is stable). -/
def sortByScoreDesc (l : List LocalMatch) : List LocalMatch :=
  l.insertionSort (fun a b => b.score ≤ a.score)

/-- Models `performLocalSemanticSearch(queryEmbedding, topK, filter)`
(src/services/vectorDatabaseService.js lines 655-682): scan the whole local
store, score and filter each record, then sort descending and
`slice(0, topK)`. -/
def performLocalSemanticSearch (store : LocalStore)
    (queryEmbedding : List ℚ) (topK : Int)
    (filter : List (String × String)) : Except JsError (List LocalMatch) := do
  let similarities ← store.foldlM (localSearchLoopBody queryEmbedding filter) []
  pure (jsSlice0 (sortByScoreDesc similarities) topK)

/-- Models `deleteVector(id)` on the local backend (lines 455-468): calls
`this.localVectors.delete(id)` *discarding its boolean result*, saves, logs,
and falls off the end of the function, so the caller receives `undefined`.
Nothing in the local path can throw. -/
def deleteVector (store : LocalStore) (id : String) : LocalStore × JsValue :=
  (mapDelete store id, JsValue.undefined)

/-- Models `getVectorStats()` on the local backend (lines 479-485):
`totalVectors` is the map size, `dimension` is the length of the first
record's `values` (0 on an empty store), `indexFullness` is 0. -/
structure VectorStats where
  totalVectors : Nat
  dimension : Nat
  indexFullness : ℚ
  deriving DecidableEq, Repr

def getVectorStats (store : LocalStore) : VectorStats :=
  { totalVectors := store.length
    dimension := match store.head? with
      | some entry => entry.2.values.length
      | none => 0
    indexFullness := 0 }

/-- The storage step of `createEmbedding(text, metadata)` on the local
backend (line 319): once the provider has produced `embedding`, the record
`{id, values: embedding, metadata: enhancedMetadata}` is stored with
`this.localVectors.set(id, vectorData)`.  No dimension check of any kind is
performed anywhere in `createEmbedding`. -/
def createEmbeddingLocalStore (store : LocalStore) (id : String)
    (embedding : List ℚ) (enhancedMetadata : List (String × String)) :
    LocalStore :=
  mapSet store id ⟨embedding, enhancedMetadata⟩

/-! ### `similaritySearch` result processing (lines 402-410)

After the backend (Pinecone or the local scan) has produced raw matches,
`similaritySearch` attaches the source text and a lexical-overlap score to
each match, optionally reranks by a 0.7/0.3 blend, and slices to `topK`. -/

/-- Tokens of `String.prototype.split(/\s+/)` applied after stripping
leading whitespace: the maximal runs of non-whitespace characters, in
order.  Structured with an explicit fuel argument (the remaining length)
because each step removes at least one character. -/
def nonWsTokensAux : Nat → List Char → List String
  | 0, _ => []
  | _, [] => []
  | n + 1, cs =>
      let tok := cs.takeWhile (fun c => !c.isWhitespace)
      let rest := (cs.dropWhile (fun c => !c.isWhitespace)).dropWhile Char.isWhitespace
      tok.asString :: nonWsTokensAux n rest

/-- Models `String.prototype.split(/\s+/)`: splits on maximal whitespace runs;
an empty first (resp. last) element appears when the string starts (resp.
ends) with whitespace, and the empty string yields `[""]`. -/
def jsSplitWs (s : String) : List String :=
  let cs := s.toList
  if cs.isEmpty then [""]
  else
    let lead := if (cs.headD ' ').isWhitespace then [""] else []
    let trail := if (cs.getLastD ' ').isWhitespace then [""] else []
    let core := cs.dropWhile Char.isWhitespace
    lead ++ nonWsTokensAux core.length core ++ trail

/-- Models `String.prototype.toLowerCase` (on the ASCII alphabet): lowercase every
character.  Defined through the character list rather than `String.map` so
that concrete instances evaluate inside the kernel. -/
def jsToLower (s : String) : String :=
  String.mk (s.toList.map Char.toLower)

/-- Models `String.prototype.includes`: substring containment. -/
def jsIncludes (s sub : String) : Bool :=
  decide (sub.toList <:+: s.toList)

/-- Models `a || fallback` on a possibly-absent string: the empty string is falsy
in JavaScript, so it also falls through to the fallback. -/
def jsOrString (o : Option String) (fallback : String) : String :=
  match o with
  | some s => if s = "" then fallback else s
  | none => fallback

/-- Models `calculateSemanticRelevance(query, text)` (lines 600-614): the fraction
of lowercased query words that substring-match (in either direction) some
word of the text.  `!text` short-circuits to 0 on the empty string.  The
query always splits into at least one word, so the division is by a
positive count. -/
def calculateSemanticRelevance (query text : String) : ℚ :=
  if text = "" then 0
  else
    let queryWords := jsSplitWs (jsToLower query)
    let textWords := jsSplitWs (jsToLower text)
    let commonWords :=
      (queryWords.filter
        (fun q => textWords.any (fun t => jsIncludes t q || jsIncludes q t))).length
    (commonWords : ℚ) / (queryWords.length : ℚ)

/-- One element of `processedResults` in `similaritySearch` (lines 402-408). -/
structure ProcessedResult where
  id : String
  score : ℚ
  text : String
  metadata : List (String × String)
  semanticRelevance : ℚ
  deriving DecidableEq, Repr

/-- Lines 402-408: each raw match gains its source text
(`metadata?.text || metadata?.originalText || ''`) and the lexical score. -/
def processMatch (query : String) (m : LocalMatch) : ProcessedResult :=
  let text := jsOrString (mapGet m.metadata "text")
    (jsOrString (mapGet m.metadata "originalText") "")
  { id := m.id
    score := m.score
    text := text
    metadata := m.metadata
    semanticRelevance := calculateSemanticRelevance query text }

/-- The 0.7/0.3 blend used by the rerank comparator (lines 619-620); on our
rational scores `(x.score || 0)` is the identity. -/
def combinedScore (r : ProcessedResult) : ℚ :=
  r.score * (7 / 10) + r.semanticRelevance * (3 / 10)

/-- Models `rerankResults(results, query)` (lines 616-623): a stable sort putting
the higher 0.7·score + 0.3·semanticRelevance blend first.  The `query`
argument is unused by the source's comparator. -/
def rerankResults (results : List ProcessedResult) : List ProcessedResult :=
  results.insertionSort (fun a b => combinedScore b ≤ combinedScore a)

/-- The result-processing tail of `similaritySearch` (lines 402-410): map
the raw matches, rerank unless `options.rerank === false`, then
`slice(0, topK)`. -/
def processSearchResults (query : String) (results : List LocalMatch)
    (rerank : Bool) (topK : Int) : List ProcessedResult :=
  let processed := results.map (processMatch query)
  let processed := if rerank then rerankResults processed else processed
  jsSlice0 processed topK

/-! ### The two caches (`vectorCache` and `semanticCache`)

Keys are MD5 hex digests in the source; the cache operations are generic in
the key and value types, so we model them generically. -/

/-- Lines 411-412: `Array.from(cache.keys())` then `delete keys[i]` for
`i < n` — removing the first `n` keys in insertion order. -/
def evictOldest {α β : Type} [DecidableEq α] (m : List (α × β)) (n : Nat) :
    List (α × β) :=
  ((m.map Prod.fst).take n).foldl mapDelete m

/-- The `semanticCache` insertion step of `similaritySearch` (lines
411-412): `set`, then if the size exceeds 1000, evict the oldest 500
entries. -/
def semanticCacheStep {α β : Type} [DecidableEq α] (cache : List (α × β))
    (k : α) (v : β) : List (α × β) :=
  let c := mapSet cache k v
  if c.length > 1000 then evictOldest c 500 else c

/-- The `vectorCache` insertion step of `createEmbedding` (line 321): a bare
`set`.  No eviction of any kind is applied to `vectorCache` anywhere in the
service (it is only emptied wholesale by `optimizeVectorDatabase`). -/
def vectorCacheStep {α β : Type} [DecidableEq α] (cache : List (α × β))
    (k : α) (v : β) : List (α × β) :=
  mapSet cache k v

/-! ### Cosine similarity

Real arithmetic models IEEE doubles here because `Math.sqrt` enters the
computation.  `JsNum` separates proper numeric results from `NaN` (and from
the infinities `x / 0` can produce for `x ≠ 0`; whether the infinity is
positive is irrelevant to every claim, so it is not tracked). -/

open Classical

/-- A JavaScript number: either an actual (real) number, `NaN`, or an
infinity. -/
inductive JsNum where
  | num : ℝ → JsNum
  | nan : JsNum
  | inf : JsNum

/-- JavaScript division: `0 / 0` is `NaN`, `x / 0` for `x ≠ 0` is an
infinity, otherwise ordinary division. -/
noncomputable def jsDiv (x y : ℝ) : JsNum :=
  if y = 0 then (if x = 0 then JsNum.nan else JsNum.inf) else JsNum.num (x / y)

/-- Models `a.reduce((sum, val) => sum + val * val, 0)`: the sum of squares. -/
noncomputable def sumSq (a : List ℝ) : ℝ :=
  a.foldl (fun s x => s + x * x) 0

/-- The value `a.reduce((sum, val, i) => sum + val * b[i], 0)` computes when
every read `b[i]` is in range, i.e. when `b` has at least `a.length`
entries — there the `zip` truncation is exact.  (`dotJs` below adds the
out-of-range behaviour.) -/
noncomputable def dotSum (a b : List ℝ) : ℝ :=
  (a.zip b).foldl (fun s p => s + p.1 * p.2) 0

/-- Models `a.reduce((sum, val, i) => sum + val * b[i], 0)` in full: when
`b` has at least `a.length` entries, every read is in range and the reduce
computes the real sum `dotSum a b`; when `b` is shorter, the first
out-of-range read yields `undefined`, `val * undefined` is `NaN`, and that
`NaN` poisons every later addition, so the whole reduce is `NaN`. -/
noncomputable def dotJs (a b : List ℝ) : JsNum :=
  if a.length ≤ b.length then JsNum.num (dotSum a b) else JsNum.nan

/-- Models `cosineSimilarity(a, b)` as defined identically on
`VectorClusteringService` (src/services/vectorDatabaseService.js lines
133-138) and in src/routes/rag.js lines 91-96: the raw quotient
`dot / (‖a‖ * ‖b‖)` with no zero-norm guard.  A `NaN` numerator — produced
by a `b` shorter than `a` — makes the whole quotient `NaN`, since `NaN / x`
is `NaN` for every `x`. -/
noncomputable def cosineSimilarity (a b : List ℝ) : JsNum :=
  match dotJs a b with
  | JsNum.num d => jsDiv d (Real.sqrt (sumSq a) * Real.sqrt (sumSq b))
  | _ => JsNum.nan

/-- Models `a.reduce((sum, val, i) => sum + val * (b[i] || 0), 0)`: the dot product
with out-of-range (or zero) entries of `b` read as 0. -/
noncomputable def dotJsPad (a b : List ℝ) : ℝ :=
  a.enum.foldl (fun s p => s + p.2 * b.getD p.1 0) 0

/-- Models `calculateCosineSimilarity(a, b)` from the visualization service
(src/unnamed/part_002 lines 498-503): guarded by
`magnitudeA && magnitudeB ? ... : 0`, so a zero magnitude (falsy) yields 0. -/
noncomputable def calculateCosineSimilarity (a b : List ℝ) : JsNum :=
  let magnitudeA := Real.sqrt (sumSq a)
  let magnitudeB := Real.sqrt (sumSq b)
  if magnitudeA = 0 ∨ magnitudeB = 0 then JsNum.num 0
  else jsDiv (dotJsPad a b) (magnitudeA * magnitudeB)

/-! ### The free TF-IDF embedding module (src/unnamed/part_001)

The MD5 digest comes from Node's `crypto` library, which is outside the
repository; the definitions take the hex-digest function as an argument
`md5hex`, so every theorem below holds for the real MD5 in particular. -/

/-- Models `this.embeddingDim` of the `FreeEmbedding` class. -/
def embeddingDim : Nat := 300

/-- Models `parseInt(c, 16)` on a single hex digit.  MD5 hex digests contain only
`0-9a-f`; other characters (which JavaScript would turn into `NaN`) are
mapped to 0, a case no digest reaches. -/
def hexVal (c : Char) : Nat :=
  if '0' ≤ c ∧ c ≤ '9' then c.toNat - 48
  else if 'a' ≤ c ∧ c ≤ 'f' then c.toNat - 87
  else if 'A' ≤ c ∧ c ≤ 'F' then c.toNat - 55
  else 0

/-- Models `createWordVector(word)` (src/unnamed/part_001 lines 15-28): hash the
lowercased word, spread the hex digits cyclically over `embeddingDim`
slots mapped into `[-0.5, 0.5]`, then L2-normalize (`magnitude || 1`
guards the zero vector). -/
noncomputable def createWordVector (md5hex : String → String)
    (word : String) : List ℝ :=
  let hash := (md5hex (jsToLower word)).toList
  let vector := (List.range embeddingDim).map
    (fun i => ((hexVal (hash.getD (i % hash.length) '0') : ℝ) / 15) - 1 / 2)
  let magnitude := Real.sqrt (sumSq vector)
  vector.map (fun v => v / (if magnitude = 0 then 1 else magnitude))

/-- The stop-word set of `isStopWord` (lines 41-51), transcribed. -/
def stopWords : List String :=
  [ "the", "is", "at", "which", "on", "and", "a", "to", "are", "as", "was",
    "will", "an", "be", "by", "this", "that", "it", "with", "for", "of",
    "in", "from", "or", "but", "not", "have", "has", "had", "can", "could",
    "would", "should", "may", "might", "must", "shall", "will", "do", "does",
    "did", "get", "got", "go", "went", "come", "came", "see", "saw", "say",
    "said", "tell", "told", "know", "knew", "think", "thought", "take", "took" ]

/-- Models `text.replace(/[^\w\s]/g, ' ')`: every character that is neither a word
character (`[A-Za-z0-9_]`) nor whitespace becomes a space. -/
def replaceNonWord (s : String) : String :=
  String.mk (s.toList.map
    (fun c => if c.isAlphanum ∨ c = '_' ∨ c.isWhitespace then c else ' '))

/-- Models `preprocessText(text)` (lines 31-38): lowercase, strip punctuation,
split on whitespace, drop short words and stop words. -/
def preprocessText (text : String) : List String :=
  ((jsSplitWs (replaceNonWord (jsToLower text))).filter
    (fun w => w.length > 2)).filter (fun w => w ∉ stopWords)

/-- Models `this.idf.get(word) || 1`: an absent — or zero — IDF weight falls back
to 1. -/
noncomputable def idfOrOne (o : Option ℝ) : ℝ :=
  match o with
  | some x => if x = 0 then 1 else x
  | none => 1

/-- Models `calculateTfIdf(words)` (lines 54-72): term counts accumulated in
first-occurrence order, then scaled to `tf * idf`. -/
noncomputable def calculateTfIdf (idf : List (String × ℝ))
    (words : List String) : List (String × ℝ) :=
  let totalWords := words.length
  let tf : List (String × ℝ) :=
    words.foldl (fun m w => mapSet m w ((mapGet m w).getD 0 + 1)) []
  tf.map (fun p => (p.1, p.2 / (totalWords : ℝ) * idfOrOne (mapGet idf p.1)))

/-- Models `createEmbedding(text)` of the `FreeEmbedding` class (lines 75-115):
zero vector on an empty token list, otherwise the TF-IDF-weighted sum of
the word vectors, weight-normalized when the total weight is positive and
finally L2-normalized (`magnitude || 1`).  The `catch` branch (a random
fallback vector) is unreachable: nothing in the `try` body throws. -/
noncomputable def freeCreateEmbedding (md5hex : String → String)
    (idf : List (String × ℝ)) (text : String) : List ℝ :=
  let words := preprocessText text
  if words = [] then List.replicate embeddingDim 0
  else
    let tfidf := calculateTfIdf idf words
    let totalWeight : ℝ := tfidf.foldl (fun s p => s + p.2) 0
    let embedding := tfidf.foldl
      (fun acc p => List.zipWith (fun e wv => e + wv * p.2) acc
        (createWordVector md5hex p.1))
      (List.replicate embeddingDim 0)
    let embedding :=
      if 0 < totalWeight then embedding.map (fun v => v / totalWeight)
      else embedding
    let magnitude := Real.sqrt (sumSq embedding)
    embedding.map (fun v => v / (if magnitude = 0 then 1 else magnitude))

/-! ### K-means clustering (`VectorClusteringService.performKMeansClustering`,
src/services/vectorDatabaseService.js lines 17-76)

`Math.random()` only enters through the initial centroid draw
`vectors[Math.floor(Math.random() * vectors.length)]`; the draw is passed in
as the function `initIdx : Nat → Nat` giving the index drawn for each of the
`k` centroids, so every theorem holds for every random outcome. -/

/-- An input record of `performKMeansClustering`: only its `values` field
participates in the algorithm (the other fields are spread unchanged into
the result, which pairing the record with its cluster index captures). -/
structure KVec where
  values : List ℝ

/-- Models `euclideanDistance(a, b)` (lines 78-80), for `b` at least as long as
`a`. -/
noncomputable def euclideanDistance (a b : List ℝ) : ℝ :=
  Real.sqrt ((a.zip b).foldl (fun s p => s + (p.1 - p.2) ^ 2) 0)

/-- The inner centroid loop of the assignment pass (lines 34-43):
`minDist` starts at `Infinity` (modelled as `none`) and `closestCentroid`
at 0; a strictly smaller distance updates both, so ties keep the lowest
centroid index. -/
noncomputable def closestCentroid (centroids : List (List ℝ))
    (v : List ℝ) : Nat :=
  (centroids.enum.foldl
    (fun acc c =>
      match acc.1 with
      | none => (some (euclideanDistance v c.2), c.1)
      | some m =>
          if euclideanDistance v c.2 < m then (some (euclideanDistance v c.2), c.1)
          else acc)
    ((none : Option ℝ), 0)).2

/-- One assignment pass over all vectors (lines 30-49): the new assignment
array and whether any entry changed. -/
noncomputable def assignPass (centroids : List (List ℝ)) (vectors : List KVec)
    (assignments : List Nat) : List Nat × Bool :=
  let a := vectors.map (fun v => closestCentroid centroids v.values)
  (a, decide (a ≠ assignments))

/-- The centroid update for cluster `i` (lines 54-68): the member vectors
are those whose assignment equals `i`; an empty cluster keeps its previous
centroid, otherwise the new centroid accumulates `val / count`
component-wise over the members (all members share the dimension taken
from the first one, the only case the algorithm produces). -/
noncomputable def updateCentroid (vectors : List KVec)
    (assignments : List Nat) (i : Nat) (old : List ℝ) : List ℝ :=
  let clusterVectors :=
    ((vectors.zip assignments).filter (fun p => p.2 = i)).map Prod.fst
  match clusterVectors with
  | [] => old
  | cv0 :: _ =>
      let n := clusterVectors.length
      clusterVectors.foldl
        (fun acc cv => List.zipWith (fun a x => a + x / (n : ℝ)) acc cv.values)
        (List.replicate cv0.values.length 0)

/-- The iteration loop (lines 29-69), with the remaining iteration budget as
fuel: run an assignment pass; stop (before any centroid update) when
nothing changed; otherwise recompute all `k` centroids and continue.
Also returns how many assignment passes ran. -/
noncomputable def kmeansIter (vectors : List KVec) (k : Nat) :
    Nat → List (List ℝ) → List Nat → List Nat × List (List ℝ) × Nat
  | 0, centroids, assignments => (assignments, centroids, 0)
  | n + 1, centroids, assignments =>
      let p := assignPass centroids vectors assignments
      if p.2 = false then (p.1, centroids, 1)
      else
        let centroids' :=
          (List.range k).map (fun i => updateCentroid vectors p.1 i (centroids.getD i []))
        let r := kmeansIter vectors k n centroids' p.1
        (r.1, r.2.1, r.2.2 + 1)

/-- Models `performKMeansClustering(vectors, k, maxIterations)` (lines 17-76):
fewer vectors than clusters degrades to one cluster per vector (vector `i`
tagged `i`); otherwise `k` centroids are drawn, the loop runs for at most
`maxIterations` passes, and every vector is returned tagged with its final
assignment. -/
noncomputable def performKMeansClustering (initIdx : Nat → Nat)
    (vectors : List KVec) (k : Nat) (maxIterations : Nat) :
    List (KVec × Nat) :=
  if vectors.length < k then vectors.enum.map (fun p => (p.2, p.1))
  else
    let centroids := (List.range k).map
      (fun i => (vectors.getD (initIdx i) ⟨[]⟩).values)
    let init := List.replicate vectors.length 0
    let r := kmeansIter vectors k maxIterations centroids init
    vectors.enum.map (fun p => (p.2, r.1.getD p.1 0))

/-! ## Theorems -/

/-! ### Helper lemmas about the local search -/

/-- The missing-method call always throws, whatever the arguments. -/
lemma getCosineSimilarity_eq (a b : List ℚ) :
    getCosineSimilarity a b = .error .typeError := rfl

/-- Each loop iteration of the local scan throws before doing anything
else. -/
lemma localSearchLoopBody_eq (q : List ℚ) (f : List (String × String))
    (acc : List LocalMatch) (e : String × LocalVectorData) :
    localSearchLoopBody q f acc e = .error .typeError := rfl

lemma performLocalSemanticSearch_cons (e : String × LocalVectorData)
    (rest : LocalStore) (q : List ℚ) (topK : Int)
    (f : List (String × String)) :
    performLocalSemanticSearch (e :: rest) q topK f = .error .typeError := rfl

/-- The three-record scenario store of the spec, in insertion order:
`[1,0]` with `{cat:"a"}`, `[0,1]` with `{cat:"b"}`, `[0.9,0.1]` with
`{cat:"a"}`. -/
def scenarioStore : LocalStore :=
  [ ("v1", ⟨[1, 0], [("cat", "a")]⟩),
    ("v2", ⟨[0, 1], [("cat", "b")]⟩),
    ("v3", ⟨[9/10, 1/10], [("cat", "a")]⟩) ]

/-- C1: the spec's insert-three-then-search scenario cannot return the
described ranking: on any nonempty local store the scan's first iteration
calls the nonexistent `this.cosineSimilarity` and throws a `TypeError`, so
`search([1,0], topK=2, filters={})` errors instead of returning the `[1,0]`
record with score 1.0. -/
theorem claim1_scenario_search_throws :
    performLocalSemanticSearch scenarioStore [1, 0] 2 [] =
      .error .typeError := rfl

/-- C2: on every nonempty local store, `performLocalSemanticSearch` throws
a `TypeError` for every query embedding, `topK` and filter, because
`VectorDatabaseService` defines no `cosineSimilarity` property. -/
theorem claim2_nonempty_local_search_throws (store : LocalStore)
    (q : List ℚ) (topK : Int) (filter : List (String × String))
    (h : store ≠ []) :
    performLocalSemanticSearch store q topK filter = .error .typeError := by
  cases store with
  | nil => exact absurd rfl h
  | cons e rest => exact performLocalSemanticSearch_cons e rest q topK filter

/-- Witness for C2 at a concrete one-record store. -/
theorem claim2_nonempty_local_search_throws_witness :
    ([(("a" : String), (⟨[1], []⟩ : LocalVectorData))] ≠ ([] : LocalStore)) ∧
      performLocalSemanticSearch [("a", ⟨[1], []⟩)] [1] 5 [] =
        .error .typeError :=
  ⟨by decide, claim2_nonempty_local_search_throws _ [1] 5 [] (by decide)⟩

/-- C6 counterexample: with one record stored and `topK = 0`, the claim
demands the empty list without error, but the search throws. -/
theorem claim6_counterexample :
    performLocalSemanticSearch [("a", ⟨[1], []⟩)] [1] 0 [] =
        .error .typeError ∧
      performLocalSemanticSearch [("a", ⟨[1], []⟩)] [1] 0 [] ≠ .ok [] := by
  refine ⟨rfl, ?_⟩
  rw [performLocalSemanticSearch_cons]
  simp

/-- C6 amended: only against the *empty* store does the local search return
an empty list — and then it does so without error for every query, `topK`
(of any sign) and filter. -/
theorem claim6_empty_store_search_ok (q : List ℚ) (topK : Int)
    (filter : List (String × String)) :
    performLocalSemanticSearch [] q topK filter = .ok [] := by
  simp [performLocalSemanticSearch, sortByScoreDesc, jsSlice0,
    List.insertionSort]
  rfl

/-! ### C3: dimension checking on insert -/

/-- C3 counterexample: with the store's dimension established as 2 by a
first record, `createEmbedding`'s local-storage step happily inserts a
3-dimensional vector — the record count grows from 1 to 2 instead of the
insert being rejected with the count unchanged. -/
theorem claim3_counterexample :
    (getVectorStats [("id1", ⟨[1, 0], []⟩)]).dimension = 2 ∧
      ([1, 2, 3] : List ℚ).length ≠ 2 ∧
      (getVectorStats [("id1", ⟨[1, 0], []⟩)]).totalVectors = 1 ∧
      (getVectorStats
        (createEmbeddingLocalStore [("id1", ⟨[1, 0], []⟩)] "id2" [1, 2, 3] [])).totalVectors = 2 := by
  decide

/-- C3 amended: `createEmbedding` performs no dimension check at all — an
insert with a fresh id always succeeds and raises the record count by one,
whatever the length of the new vector relative to the established
dimension. -/
theorem claim3_no_dimension_check (store : LocalStore) (id : String)
    (embedding : List ℚ) (metadata : List (String × String))
    (h : mapHas store id = false) :
    (getVectorStats (createEmbeddingLocalStore store id embedding metadata)).totalVectors =
      (getVectorStats store).totalVectors + 1 := by
  have hc : ((store.map Prod.fst).contains id) = false := h
  simp only [createEmbeddingLocalStore, mapSet, hc, Bool.false_eq_true,
    if_false, getVectorStats]
  simp

/-- Witness for C3's amended statement: a mismatched-length insert into a
one-record store of dimension 2. -/
theorem claim3_no_dimension_check_witness :
    mapHas [(("id1" : String), (⟨[1, 0], []⟩ : LocalVectorData))] "id2" = false ∧
      (getVectorStats
        (createEmbeddingLocalStore [("id1", ⟨[1, 0], []⟩)] "id2" [1, 2, 3] [])).totalVectors =
        (getVectorStats [(("id1" : String), (⟨[1, 0], []⟩ : LocalVectorData))]).totalVectors + 1 :=
  ⟨by decide, claim3_no_dimension_check _ "id2" [1, 2, 3] [] (by decide)⟩

/-! ### C4: deleteVector's return value and idempotence -/

lemma mapGet_cons {α β : Type} [DecidableEq α] (p : α × β)
    (t : List (α × β)) (k : α) :
    mapGet (p :: t) k = if p.1 = k then some p.2 else mapGet t k := by
  by_cases h : p.1 = k
  · simp [mapGet, List.find?_cons_of_pos, h]
  · simp only [if_neg h]
    simp [mapGet, List.find?_cons_of_neg, h]

lemma mapDelete_cons {α β : Type} [DecidableEq α] (p : α × β)
    (t : List (α × β)) (k : α) :
    mapDelete (p :: t) k = if p.1 = k then mapDelete t k else p :: mapDelete t k := by
  by_cases h : p.1 = k <;> simp [mapDelete, h]

lemma mapGet_mapDelete_self {α β : Type} [DecidableEq α]
    (m : List (α × β)) (k : α) : mapGet (mapDelete m k) k = none := by
  induction m with
  | nil => rfl
  | cons p t ih =>
      by_cases hp : p.1 = k
      · rw [mapDelete_cons, if_pos hp]; exact ih
      · rw [mapDelete_cons, if_neg hp, mapGet_cons, if_neg hp]; exact ih

lemma mapGet_mapDelete_other {α β : Type} [DecidableEq α]
    (m : List (α × β)) (k k' : α) (h : k' ≠ k) :
    mapGet (mapDelete m k) k' = mapGet m k' := by
  induction m with
  | nil => rfl
  | cons p t ih =>
      by_cases hp : p.1 = k
      · have hp' : p.1 ≠ k' := fun hk => h (hk.symm.trans hp)
        rw [mapDelete_cons, if_pos hp, mapGet_cons, if_neg hp']
        exact ih
      · by_cases hq : p.1 = k'
        · rw [mapDelete_cons, if_neg hp, mapGet_cons, if_pos hq,
            mapGet_cons, if_pos hq]
        · rw [mapDelete_cons, if_neg hp, mapGet_cons, if_neg hq,
            mapGet_cons, if_neg hq]
          exact ih

lemma mapDelete_idem {α β : Type} [DecidableEq α] (m : List (α × β)) (k : α) :
    mapDelete (mapDelete m k) k = mapDelete m k := by
  simp [mapDelete, List.filter_filter]

/-- C4 counterexample: deleting a *present* id returns `undefined`, not the
boolean `true` the claim requires (`Map.delete`'s boolean result is
discarded and the function returns nothing). -/
theorem claim4_counterexample :
    (deleteVector [("a", ⟨[1], []⟩)] "a").2 = JsValue.undefined ∧
      JsValue.undefined ≠ JsValue.boolean true := by
  decide

/-- C4 amended: `deleteVector` always returns `undefined` (never a
boolean); it does remove the record with the given id when present, leaves
every other record untouched, never throws, and repeating the call is a
no-op that again returns `undefined`. -/
theorem claim4_delete_semantics (store : LocalStore) (id : String) :
    (deleteVector store id).2 = JsValue.undefined ∧
      mapGet (deleteVector store id).1 id = none ∧
      (∀ k, k ≠ id → mapGet (deleteVector store id).1 k = mapGet store k) ∧
      deleteVector (deleteVector store id).1 id =
        ((deleteVector store id).1, JsValue.undefined) := by
  refine ⟨rfl, mapGet_mapDelete_self store id, ?_, ?_⟩
  · exact fun k hk => mapGet_mapDelete_other store id k hk
  · simp [deleteVector, mapDelete_idem]

/-- Witness for C4's amended statement on a concrete store. -/
theorem claim4_delete_semantics_witness :
    (deleteVector [("a", ⟨[1], []⟩)] "a").2 = JsValue.undefined ∧
      mapGet (deleteVector [(("a" : String), (⟨[1], []⟩ : LocalVectorData))] "a").1 "a" = none :=
  ⟨(claim4_delete_semantics [("a", ⟨[1], []⟩)] "a").1,
    (claim4_delete_semantics [("a", ⟨[1], []⟩)] "a").2.1⟩

/-! ### C5: score ordering of search results -/

/-- C5 counterexample: with reranking enabled (the default), the returned
raw `score` fields need not be descending.  A match with vector score 0.5
whose text equals the query is reranked above a match with vector score 0.6
and no text (blends 0.65 vs 0.42), so the output scores are `[0.5, 0.6]` —
ascending. -/
theorem claim5_counterexample :
    (processSearchResults "alpha"
        [ ⟨"r1", 3/5, []⟩,
          ⟨"r2", 1/2, [("text", "alpha")]⟩ ] true 5).map
      ProcessedResult.score = [1/2, 3/5] ∧
      ¬ ((1 : ℚ)/2 ≥ 3/5) := by
  constructor
  · have hrel : calculateSemanticRelevance "alpha" "alpha" = 1 := by
      have hc : ((jsSplitWs (jsToLower "alpha")).filter
          (fun q => (jsSplitWs (jsToLower "alpha")).any
            (fun t => jsIncludes t q || jsIncludes q t))).length = 1 := by decide
      have hl : (jsSplitWs (jsToLower "alpha")).length = 1 := by decide
      simp only [calculateSemanticRelevance, hc, hl]
      rw [if_neg (by decide)]
      norm_num
    have hmap : [(⟨"r1", 3/5, []⟩ : LocalMatch),
          ⟨"r2", 1/2, [("text", "alpha")]⟩].map (processMatch "alpha") =
        [⟨"r1", 3/5, "", [], 0⟩,
          ⟨"r2", 1/2, "alpha", [("text", "alpha")], 1⟩] := by
      simp [processMatch, jsOrString, mapGet, hrel]
      rfl
    have hsort : rerankResults
        [(⟨"r1", 3/5, "", [], 0⟩ : ProcessedResult),
          ⟨"r2", 1/2, "alpha", [("text", "alpha")], 1⟩] =
        [⟨"r2", 1/2, "alpha", [("text", "alpha")], 1⟩,
          ⟨"r1", 3/5, "", [], 0⟩] := by
      simp only [rerankResults, List.insertionSort, List.orderedInsert]
      rw [if_neg (by norm_num [combinedScore])]
    simp only [processSearchResults, hmap, if_true, hsort, jsSlice0]
    rfl
  · norm_num

/-- C5 amended: what descends after the default rerank is the blended key
0.7·score + 0.3·semanticRelevance, for every input; the raw `score` fields
are descending only when reranking is disabled and the backend's matches
were already score-descending. -/
theorem claim5_rank_ordering (query : String) (results : List LocalMatch)
    (topK : Int) :
    List.Chain' (fun a b => combinedScore b ≤ combinedScore a)
      (processSearchResults query results true topK) ∧
    (List.Chain' (fun a b : LocalMatch => b.score ≤ a.score) results →
      List.Chain' (fun a b : ProcessedResult => b.score ≤ a.score)
        (processSearchResults query results false topK)) := by
  constructor
  · haveI : IsTotal ProcessedResult
        (fun a b => combinedScore b ≤ combinedScore a) :=
      ⟨fun a b => le_total (combinedScore b) (combinedScore a)⟩
    haveI : IsTrans ProcessedResult
        (fun a b => combinedScore b ≤ combinedScore a) :=
      ⟨fun _ _ _ hab hbc => le_trans hbc hab⟩
    have hs : (rerankResults (results.map (processMatch query))).Pairwise
        (fun a b => combinedScore b ≤ combinedScore a) :=
      List.sorted_insertionSort _ _
    have ht : (jsSlice0 (rerankResults (results.map (processMatch query)))
        topK).Pairwise (fun a b => combinedScore b ≤ combinedScore a) :=
      hs.sublist (List.take_sublist _ _)
    simpa [processSearchResults] using ht.chain'
  · intro h
    haveI : IsTrans LocalMatch (fun a b : LocalMatch => b.score ≤ a.score) :=
      ⟨fun _ _ _ hab hbc => le_trans hbc hab⟩
    have hp : results.Pairwise (fun a b : LocalMatch => b.score ≤ a.score) :=
      List.chain'_iff_pairwise.mp h
    have hm : (results.map (processMatch query)).Pairwise
        (fun a b : ProcessedResult => b.score ≤ a.score) :=
      hp.map _ (fun _ _ hab => hab)
    have ht : (jsSlice0 (results.map (processMatch query)) topK).Pairwise
        (fun a b : ProcessedResult => b.score ≤ a.score) :=
      hm.sublist (List.take_sublist _ _)
    simpa [processSearchResults] using ht.chain'

/-- Witness for C5's amended statement on concrete score-sorted matches. -/
theorem claim5_rank_ordering_witness :
    List.Chain' (fun a b : LocalMatch => b.score ≤ a.score)
        [⟨"r1", 1, []⟩, ⟨"r2", 1/2, []⟩] ∧
      List.Chain' (fun a b : ProcessedResult => b.score ≤ a.score)
        (processSearchResults "q" [⟨"r1", 1, []⟩, ⟨"r2", 1/2, []⟩] false 5) := by
  have h : List.Chain' (fun a b : LocalMatch => b.score ≤ a.score)
      [⟨"r1", 1, []⟩, ⟨"r2", 1/2, []⟩] := by
    simp [List.chain'_cons]
    norm_num
  exact ⟨h, (claim5_rank_ordering "q" [⟨"r1", 1, []⟩, ⟨"r2", 1/2, []⟩] 5).2 h⟩

/-! ### C7: totality and range of cosine similarity -/

lemma foldl_add_shift {α : Type} (f : α → ℝ) :
    ∀ (l : List α) (c : ℝ),
      l.foldl (fun s x => s + f x) c = c + l.foldl (fun s x => s + f x) 0 := by
  intro l
  induction l with
  | nil => intro c; simp
  | cons x t ih =>
      intro c
      rw [List.foldl_cons, List.foldl_cons, ih (c + f x), ih (0 + f x)]
      ring

lemma sumSq_nil : sumSq [] = 0 := rfl

lemma sumSq_cons (x : ℝ) (l : List ℝ) :
    sumSq (x :: l) = x * x + sumSq l := by
  rw [sumSq, List.foldl_cons, foldl_add_shift (fun y => y * y), sumSq]
  ring

lemma dotSum_nil_left (b : List ℝ) : dotSum [] b = 0 := rfl

lemma dotSum_nil_right (a : List ℝ) : dotSum a [] = 0 := by
  cases a <;> rfl

lemma dotSum_cons (x y : ℝ) (a b : List ℝ) :
    dotSum (x :: a) (y :: b) = x * y + dotSum a b := by
  rw [dotSum, List.zip_cons_cons, List.foldl_cons,
    foldl_add_shift (fun p : ℝ × ℝ => p.1 * p.2), dotSum]
  ring

lemma dotJs_of_le {a b : List ℝ} (h : a.length ≤ b.length) :
    dotJs a b = JsNum.num (dotSum a b) := if_pos h

lemma dotJs_of_gt {a b : List ℝ} (h : b.length < a.length) :
    dotJs a b = JsNum.nan := if_neg (by omega)

lemma cosineSimilarity_of_le {a b : List ℝ} (h : a.length ≤ b.length) :
    cosineSimilarity a b =
      jsDiv (dotSum a b) (Real.sqrt (sumSq a) * Real.sqrt (sumSq b)) := by
  simp only [cosineSimilarity, dotJs_of_le h]

lemma cosineSimilarity_of_gt {a b : List ℝ} (h : b.length < a.length) :
    cosineSimilarity a b = JsNum.nan := by
  simp only [cosineSimilarity, dotJs_of_gt h]

lemma sumSq_nonneg (l : List ℝ) : 0 ≤ sumSq l := by
  induction l with
  | nil => rw [sumSq_nil]
  | cons x t ih => rw [sumSq_cons]; nlinarith [sq_nonneg x]

lemma sumSq_eq_zero_mem {l : List ℝ} (h : sumSq l = 0) :
    ∀ x ∈ l, x = 0 := by
  induction l with
  | nil => intro x hx; cases hx
  | cons y t ih =>
      rw [sumSq_cons] at h
      have ht : 0 ≤ sumSq t := sumSq_nonneg t
      have hy : y * y = 0 := by nlinarith [sq_nonneg y]
      intro x hx
      rcases List.mem_cons.mp hx with hx | hx
      · subst hx; nlinarith
      · exact ih (by nlinarith) x hx

lemma dotSum_eq_zero_left {a : List ℝ} (b : List ℝ)
    (h : ∀ x ∈ a, x = 0) : dotSum a b = 0 := by
  induction a generalizing b with
  | nil => exact dotSum_nil_left b
  | cons x t ih =>
      cases b with
      | nil => exact dotSum_nil_right _
      | cons y u =>
          rw [dotSum_cons, h x (List.mem_cons_self x t),
            ih u (fun z hz => h z (List.mem_cons_of_mem x hz))]
          ring

lemma dotSum_eq_zero_right (a : List ℝ) {b : List ℝ}
    (h : ∀ y ∈ b, y = 0) : dotSum a b = 0 := by
  induction a generalizing b with
  | nil => exact dotSum_nil_left b
  | cons x t ih =>
      cases b with
      | nil => exact dotSum_nil_right _
      | cons y u =>
          rw [dotSum_cons, h y (List.mem_cons_self y u),
            ih (fun z hz => h z (List.mem_cons_of_mem y hz))]
          ring

/-- Cauchy-Schwarz for the source's `reduce`-style dot product and sums of
squares. -/
lemma dotSum_sq_le (a : List ℝ) : ∀ b : List ℝ,
    (dotSum a b) ^ 2 ≤ sumSq a * sumSq b := by
  induction a with
  | nil =>
      intro b
      rw [dotSum_nil_left, sumSq_nil]
      nlinarith [sumSq_nonneg b]
  | cons x t ih =>
      intro b
      cases b with
      | nil =>
          rw [dotSum_nil_right, sumSq_nil]
          nlinarith [sumSq_nonneg (x :: t)]
      | cons y u =>
          rw [dotSum_cons, sumSq_cons, sumSq_cons]
          have h := ih u
          have hA0 : 0 ≤ sumSq t := sumSq_nonneg t
          have hB0 : 0 ≤ sumSq u := sumSq_nonneg u
          have hS0 : 0 ≤ x * x * sumSq u + y * y * sumSq t :=
            add_nonneg (mul_nonneg (mul_self_nonneg x) hB0)
              (mul_nonneg (mul_self_nonneg y) hA0)
          have hkey : 2 * (x * y) * dotSum t u ≤
              x * x * sumSq u + y * y * sumSq t := by
            rcases le_or_lt (2 * (x * y) * dotSum t u) 0 with hneg | hpos
            · exact hneg.trans hS0
            · have hsq : (2 * (x * y) * dotSum t u) ^ 2 ≤
                  (x * x * sumSq u + y * y * sumSq t) ^ 2 := by
                nlinarith [sq_nonneg (x * x * sumSq u - y * y * sumSq t),
                  mul_nonneg (sq_nonneg (x * y)) (sub_nonneg.mpr h)]
              nlinarith [hsq, hS0, hpos]
          nlinarith [h, hkey]

lemma abs_dotSum_le (a b : List ℝ) :
    |dotSum a b| ≤ Real.sqrt (sumSq a) * Real.sqrt (sumSq b) := by
  rw [← Real.sqrt_sq_eq_abs, ← Real.sqrt_mul (sumSq_nonneg a)]
  exact Real.sqrt_le_sqrt (by simpa [sq] using dotSum_sq_le a b)

/-- C7 counterexample: the cosine used by clustering (and the identical one
in rag.js) is *not* total: on the zero vector it evaluates `0 / 0`, which
is `NaN`, not the 0 the claim requires. -/
theorem claim7_counterexample :
    cosineSimilarity [(0 : ℝ), 0] [1, 1] = JsNum.nan ∧
      JsNum.nan ≠ JsNum.num 0 := by
  constructor
  · have hd : dotSum [(0 : ℝ), 0] [1, 1] = 0 := by
      rw [dotSum_cons, dotSum_cons, dotSum_nil_left]; ring
    have hs : sumSq [(0 : ℝ), 0] = 0 := by
      rw [sumSq_cons, sumSq_cons, sumSq_nil]; ring
    rw [cosineSimilarity_of_le (by norm_num), hd, hs]
    simp [Real.sqrt_zero, jsDiv]
  · intro h; exact JsNum.noConfusion h

/-- C7 amended: only the visualization service's `calculateCosineSimilarity`
returns 0 on a zero-norm input; the clustering/rag.js `cosineSimilarity`
yields `NaN` there.  That cosine is also `NaN` whenever the first vector is
longer than the second (the out-of-range reads `b[i]` poison the sum),
whatever the norms.  Only when both norms are nonzero and the second vector
has at least as many entries as the first — the equal-dimension case every
caller exercises — does it return an actual number, and that number lies in
[-1, 1]. -/
theorem claim7_cosine_totality (a b : List ℝ) :
    ((sumSq a = 0 ∨ sumSq b = 0) →
      calculateCosineSimilarity a b = JsNum.num 0 ∧
        cosineSimilarity a b = JsNum.nan) ∧
    (b.length < a.length → cosineSimilarity a b = JsNum.nan) ∧
    (sumSq a ≠ 0 → sumSq b ≠ 0 → a.length ≤ b.length →
      ∃ r, cosineSimilarity a b = JsNum.num r ∧ -1 ≤ r ∧ r ≤ 1) := by
  refine ⟨?_, fun hl => cosineSimilarity_of_gt hl, ?_⟩
  · intro h
    constructor
    · rcases h with h | h <;>
        simp [calculateCosineSimilarity, h, Real.sqrt_zero]
    · by_cases hl : a.length ≤ b.length
      · have hd : dotSum a b = 0 := by
          rcases h with h | h
          · exact dotSum_eq_zero_left b (sumSq_eq_zero_mem h)
          · exact dotSum_eq_zero_right a (sumSq_eq_zero_mem h)
        rw [cosineSimilarity_of_le hl, hd]
        rcases h with h | h <;> simp [h, Real.sqrt_zero, jsDiv]
      · exact cosineSimilarity_of_gt (by omega)
  · intro ha hb hl
    have hA : 0 < sumSq a := (sumSq_nonneg a).lt_of_ne (Ne.symm ha)
    have hB : 0 < sumSq b := (sumSq_nonneg b).lt_of_ne (Ne.symm hb)
    have hsa : 0 < Real.sqrt (sumSq a) := Real.sqrt_pos.mpr hA
    have hsb : 0 < Real.sqrt (sumSq b) := Real.sqrt_pos.mpr hB
    have hden : 0 < Real.sqrt (sumSq a) * Real.sqrt (sumSq b) :=
      mul_pos hsa hsb
    refine ⟨dotSum a b / (Real.sqrt (sumSq a) * Real.sqrt (sumSq b)), ?_, ?_⟩
    · rw [cosineSimilarity_of_le hl]
      simp [jsDiv, ne_of_gt hden]
    · have habs : |dotSum a b / (Real.sqrt (sumSq a) * Real.sqrt (sumSq b))| ≤ 1 := by
        rw [abs_div, abs_of_pos hden]
        exact div_le_one_of_le₀ (abs_dotSum_le a b) hden.le
      exact abs_le.mp habs

/-- Witness for C7's amended statement: the zero vector against `[1,1]` for
the zero-norm clause, `[1,1]` against `[1]` for the length-mismatch `NaN`
clause, and `[1]` against `[1]` for the numeric clause. -/
theorem claim7_cosine_totality_witness :
    (sumSq [(0 : ℝ), 0] = 0 ∧
      calculateCosineSimilarity [(0 : ℝ), 0] [1, 1] = JsNum.num 0) ∧
    (([1] : List ℝ).length < ([1, 1] : List ℝ).length ∧
      cosineSimilarity [(1 : ℝ), 1] [1] = JsNum.nan) ∧
    (sumSq [(1 : ℝ)] ≠ 0 ∧ ([1] : List ℝ).length ≤ ([1] : List ℝ).length ∧
      ∃ r, cosineSimilarity [(1 : ℝ)] [1] = JsNum.num r ∧ -1 ≤ r ∧ r ≤ 1) := by
  have h0 : sumSq [(0 : ℝ), 0] = 0 := by
    rw [sumSq_cons, sumSq_cons, sumSq_nil]; ring
  have h1 : sumSq [(1 : ℝ)] ≠ 0 := by
    rw [sumSq_cons, sumSq_nil]; norm_num
  have hlt : ([1] : List ℝ).length < ([1, 1] : List ℝ).length := by norm_num
  have hle : ([1] : List ℝ).length ≤ ([1] : List ℝ).length := le_refl _
  exact ⟨⟨h0, ((claim7_cosine_totality [0, 0] [1, 1]).1 (Or.inl h0)).1⟩,
    ⟨hlt, (claim7_cosine_totality [1, 1] [1]).2.1 hlt⟩,
    ⟨h1, hle, (claim7_cosine_totality [1] [1]).2.2 h1 h1 hle⟩⟩

/-! ### C8: determinism of the local embedding generator -/

/-- C8: the free embedding pipeline is deterministic.  The per-token word
vector depends only on the hash of the *lowercased* token — two tokens with
the same lowercasing get identical vectors, for every hash function (so for
MD5 in particular) — and re-running `createEmbedding` on the same text with
the same IDF state reproduces the result bit for bit (the only random
fallback sits in a `catch` whose `try` body cannot throw). -/
theorem claim8_embedding_deterministic (md5hex : String → String)
    (idf : List (String × ℝ)) (text w₁ w₂ : String) :
    (jsToLower w₁ = jsToLower w₂ →
      createWordVector md5hex w₁ = createWordVector md5hex w₂) ∧
      freeCreateEmbedding md5hex idf text = freeCreateEmbedding md5hex idf text := by
  refine ⟨fun h => ?_, rfl⟩
  simp only [createWordVector, h]

/-- Witness for C8 with the identity in place of the hash and a pair of
tokens differing only in case. -/
theorem claim8_embedding_deterministic_witness :
    jsToLower "Cat" = jsToLower "cat" ∧
      createWordVector (fun s => s) "Cat" = createWordVector (fun s => s) "cat" :=
  ⟨by decide,
    (claim8_embedding_deterministic (fun s => s) [] "x" "Cat" "cat").1 (by decide)⟩

/-! ### C9: cache boundedness -/

/-- A full embedding cache: 1000 entries with distinct keys. -/
def bigCache : List (Nat × Nat) := (List.range 1000).map (fun i => (i, 0))

lemma bigCache_keys : bigCache.map Prod.fst = List.range 1000 := by
  simp [bigCache, List.map_map, Function.comp_def]

/-- C9 counterexample: the embedding cache (`vectorCache`) has no eviction:
inserting a fresh key into a 1000-entry cache leaves 1001 entries, so the
cache exceeds the claimed bound and no oldest-half eviction happens. -/
theorem claim9_counterexample :
    bigCache.length = 1000 ∧
      (vectorCacheStep bigCache 1000 0).length = 1001 := by
  have hkeys := bigCache_keys
  have hlen : bigCache.length = 1000 := by simp [bigCache]
  have hmem : (1000 : Nat) ∉ bigCache.map Prod.fst := by
    rw [hkeys]; simp
  have hc : ((bigCache.map Prod.fst).contains 1000) = false := by
    simpa using hmem
  refine ⟨hlen, ?_⟩
  simp only [vectorCacheStep, mapSet, hc, Bool.false_eq_true, if_false]
  simp [hlen]

lemma mapSet_length_of_contains {α β : Type} [DecidableEq α]
    {m : List (α × β)} {k : α} (v : β)
    (h : (m.map Prod.fst).contains k = true) :
    (mapSet m k v).length = m.length := by
  rw [mapSet, if_pos h, List.length_map]

lemma mapSet_length_of_not_contains {α β : Type} [DecidableEq α]
    {m : List (α × β)} {k : α} (v : β)
    (h : (m.map Prod.fst).contains k = false) :
    (mapSet m k v).length = m.length + 1 := by
  rw [mapSet, if_neg (by rw [h]; simp), List.length_append, List.length_singleton]

lemma mapDelete_head {α β : Type} [DecidableEq α] (p : α × β)
    (t : List (α × β)) (h : p.1 ∉ t.map Prod.fst) :
    mapDelete (p :: t) p.1 = t := by
  rw [mapDelete_cons, if_pos rfl, mapDelete]
  refine List.filter_eq_self.mpr (fun q hq => ?_)
  simp only [ne_eq, decide_eq_true_eq]
  exact fun hk => h (hk ▸ List.mem_map_of_mem Prod.fst hq)

/-- Evicting the first `n` keys of a duplicate-free map drops its first `n`
entries. -/
lemma evictOldest_eq_drop {α β : Type} [DecidableEq α] :
    ∀ (m : List (α × β)) (n : Nat), (m.map Prod.fst).Nodup →
      evictOldest m n = m.drop n := by
  intro m
  induction m with
  | nil => intro n _; simp [evictOldest]
  | cons p t ih =>
      intro n hnod
      cases n with
      | zero => simp [evictOldest]
      | succ s =>
          rw [List.map_cons] at hnod
          have hhead : p.1 ∉ t.map Prod.fst := (List.nodup_cons.mp hnod).1
          have htail : (t.map Prod.fst).Nodup := (List.nodup_cons.mp hnod).2
          rw [evictOldest, List.map_cons, List.take_succ_cons,
            List.foldl_cons, mapDelete_head p t hhead]
          have := ih s htail
          rw [evictOldest] at this
          rw [this, List.drop_succ_cons]

lemma mapSet_keys_of_not_contains {α β : Type} [DecidableEq α]
    {m : List (α × β)} {k : α} (v : β)
    (h : (m.map Prod.fst).contains k = false) :
    (mapSet m k v).map Prod.fst = m.map Prod.fst ++ [k] := by
  rw [mapSet, if_neg (by rw [h]; simp), List.map_append, List.map_singleton]

/-- C9 amended: only the search-result cache (`semanticCache`) is bounded —
its insertion step keeps a duplicate-free cache within 1000 entries (a
fresh key can momentarily reach 1001, upon which the oldest 500 entries are
deleted, leaving 501).  The embedding cache (`vectorCache`) has no eviction
at all (see the counterexample). -/
theorem claim9_semanticCache_bounded {α β : Type} [DecidableEq α]
    (cache : List (α × β)) (k : α) (v : β)
    (hnod : (cache.map Prod.fst).Nodup) (hle : cache.length ≤ 1000) :
    (semanticCacheStep cache k v).length ≤ 1000 := by
  simp only [semanticCacheStep]
  by_cases hc : ((cache.map Prod.fst).contains k) = true
  · have hlen : (mapSet cache k v).length = cache.length :=
      mapSet_length_of_contains v hc
    rw [if_neg (by omega)]
    omega
  · have hc' : ((cache.map Prod.fst).contains k) = false :=
      Bool.eq_false_iff.mpr hc
    have hlen : (mapSet cache k v).length = cache.length + 1 :=
      mapSet_length_of_not_contains v hc'
    by_cases hgt : (mapSet cache k v).length > 1000
    · rw [if_pos hgt]
      have hmem : k ∉ cache.map Prod.fst := by simpa using hc'
      have hnod' : ((mapSet cache k v).map Prod.fst).Nodup := by
        rw [mapSet_keys_of_not_contains v hc']
        refine List.Nodup.append hnod (List.nodup_singleton k) ?_
        intro x hx hk
        rw [List.mem_singleton] at hk
        exact hmem (hk ▸ hx)
      rw [evictOldest_eq_drop _ _ hnod', List.length_drop]
      omega
    · rw [if_neg hgt]
      omega

/-- Witness for C9's amended statement on the empty cache. -/
theorem claim9_semanticCache_bounded_witness :
    (([] : List (Nat × Nat)).map Prod.fst).Nodup ∧
      ([] : List (Nat × Nat)).length ≤ 1000 ∧
      (semanticCacheStep ([] : List (Nat × Nat)) 0 0).length ≤ 1000 :=
  ⟨by simp, by simp,
    claim9_semanticCache_bounded [] 0 0 (by simp) (by simp)⟩

/-! ### C10: k-means termination and coverage -/

lemma kmeansIter_passes_le (vectors : List KVec) (k : Nat) :
    ∀ (fuel : Nat) (c : List (List ℝ)) (a : List Nat),
      (kmeansIter vectors k fuel c a).2.2 ≤ fuel := by
  intro fuel
  induction fuel with
  | zero => intro c a; simp [kmeansIter]
  | succ n ih =>
      intro c a
      simp only [kmeansIter]
      by_cases h : (assignPass c vectors a).2 = false
      · rw [if_pos h]
        exact Nat.succ_le_succ (Nat.zero_le n)
      · rw [if_neg h]
        exact Nat.succ_le_succ (ih ((List.range k).map
          (fun i => updateCentroid vectors (assignPass c vectors a).1 i (c.getD i [])))
          (assignPass c vectors a).1)

/-- C10: `performKMeansClustering` runs at most `maxIterations` assignment
passes (the loop stops immediately — before any centroid update — once a
pass changes nothing), returns exactly one tagged record per input vector
with the input order and records preserved, and degrades to one cluster per
vector (`vector i ↦ cluster i`) when there are fewer vectors than the
requested `k`, skipping the iterative algorithm. -/
theorem claim10_kmeans (initIdx : Nat → Nat) (vectors : List KVec)
    (k maxIterations : Nat) :
    ((performKMeansClustering initIdx vectors k maxIterations).map Prod.fst =
        vectors ∧
      (performKMeansClustering initIdx vectors k maxIterations).length =
        vectors.length) ∧
    (∀ c a, (kmeansIter vectors k maxIterations c a).2.2 ≤ maxIterations) ∧
    (∀ n c a, (assignPass c vectors a).2 = false →
      kmeansIter vectors k (n + 1) c a = ((assignPass c vectors a).1, c, 1)) ∧
    (vectors.length < k →
      performKMeansClustering initIdx vectors k maxIterations =
        vectors.enum.map (fun p => (p.2, p.1))) := by
  refine ⟨?_, fun c a => kmeansIter_passes_le vectors k maxIterations c a,
    fun n c a h => ?_, fun h => ?_⟩
  · constructor
    · by_cases h : vectors.length < k
      · simp only [performKMeansClustering]
        rw [if_pos h, List.map_map]
        exact List.enum_map_snd vectors
      · simp only [performKMeansClustering]
        rw [if_neg h, List.map_map]
        exact List.enum_map_snd vectors
    · by_cases h : vectors.length < k
      · simp only [performKMeansClustering]
        rw [if_pos h, List.length_map, List.enum_length]
      · simp only [performKMeansClustering]
        rw [if_neg h, List.length_map, List.enum_length]
  · simp only [kmeansIter]
    rw [if_pos h]
  · simp only [performKMeansClustering]
    rw [if_pos h]

/-- Witness for C10's degrade clause: one vector, two requested clusters. -/
theorem claim10_kmeans_witness :
    ([(⟨[1]⟩ : KVec)].length < 2) ∧
      performKMeansClustering id [(⟨[1]⟩ : KVec)] 2 3 = [(⟨[(1 : ℝ)]⟩, 0)] := by
  have h : ([(⟨[1]⟩ : KVec)].length < 2) := by norm_num
  refine ⟨h, ?_⟩
  rw [(claim10_kmeans id [⟨[1]⟩] 2 3).2.2.2 h]
  rfl

end Gavina
